import Mathlib

/-!
Shallow embedding of `random-password-please` (src/main.go) and proofs about
its password-generation, length-clamping, counter and persistence behavior.

Modelling conventions:
  * Go strings are `List Char` (all data here is ASCII, so byte = char).
  * The `uint64` counter is a `Nat` reduced modulo `2 ^ 64` at each increment.
  * The buffered channel `passwords` is a FIFO `List (List Char)`; a blocked
    channel receive is an `Option.none` result.
  * File I/O is explicit state passing on the file's contents; fallible
    operations take a fault oracle recording which syscalls fail.
  * An asynchronous `go saveCounter()` dispatch is recorded as a `Bool` in
    the step's result; it does not modify the file in that step.
-/

/-- Go constant `minPasswordLength` (src/main.go line 20). -/
def minPasswordLength : Nat := 8

/-- Go constant `maxPasswordLength` (src/main.go line 21). -/
def maxPasswordLength : Nat := 30

/-- Modulus of Go's `uint64`, the type of `counter`. -/
def uint64Mod : Nat := 2 ^ 64

/-- Largest value of Go's `int` (64-bit). -/
def int64Max : Int := 2 ^ 63 - 1

/-- Smallest value of Go's `int` (64-bit). -/
def int64Min : Int := -(2 ^ 63)

/-- The fixed alphabet from `generatePasswords` (src/main.go line 126). -/
def alphabet : List Char :=
  "abcdefghjkmnpqrstuvwxyzABCDEFGHJKLMNPQRSTUVWXYZ23456789".toList

/-- One iteration of the generator loop body (src/main.go lines 129-131):
`password[i] = alphabet[rand.Int()%len(alphabet)]` for `i < maxPasswordLength`.
The pseudo-random source `rand.Int()` is modelled as an arbitrary stream
`r : Nat → Nat` of non-negative values (`rand.Int` never returns a negative). -/
def generatePassword (r : Nat → Nat) : List Char :=
  (List.range maxPasswordLength).map fun i => alphabet.getD (r i % alphabet.length) 'a'

/-! ### Decimal formatting and parsing (Go `fmt.Fprint` on a uint64, and
`strconv.ParseUint(_, 10, 64)` applied after `bytes.TrimSpace`) -/

/-- The ASCII digit character for `d < 10`. -/
def decDigit (d : Nat) : Char := Char.ofNat (48 + d)

/-- Fuel-indexed digit expansion; `fuel ≥ n` suffices for correctness and
`decRepr` always supplies it. -/
def decReprAux (fuel n : Nat) : List Char :=
  match fuel with
  | 0 => []
  | fuel' + 1 =>
    if n < 10 then [decDigit n]
    else decReprAux fuel' (n / 10) ++ [decDigit (n % 10)]

/-- Decimal representation of a natural number, as Go's `fmt.Fprint` writes a
`uint64` (src/main.go line 157). -/
def decRepr (n : Nat) : List Char := decReprAux (n + 1) n

/-- Numeric value of an ASCII digit character. -/
def digitVal (c : Char) : Nat := c.toNat - 48

/-- Accumulate the value of a digit string, most significant digit first. -/
def parseDigitsNat (s : List Char) : Nat :=
  s.foldl (fun a c => a * 10 + digitVal c) 0

/-- Go's `strconv.ParseUint(s, 10, 64)`: fails on the empty string, on any
non-digit character (no sign, no underscores at base 10), and on overflow
past `2^64 - 1` (`ErrRange` also sets `err != nil`). -/
def parseUint64 (s : List Char) : Option Nat :=
  if s ≠ [] ∧ s.all Char.isDigit then
    if parseDigitsNat s < uint64Mod then some (parseDigitsNat s) else none
  else none

/-- Go's `strconv.Atoi` = `strconv.ParseInt(s, 10, 64)`: an optional single
leading sign, then one or more digits; fails on the empty string, a bare
sign, any other character, or overflow outside the 64-bit range. -/
def goAtoi (s : List Char) : Option Int :=
  match s with
  | [] => none
  | c :: rest =>
    let neg : Bool := c.toNat = 45
    let digits := if c.toNat = 45 || c.toNat = 43 then rest else s
    if digits ≠ [] ∧ digits.all Char.isDigit then
      let i : Int := if neg then -(parseDigitsNat digits : Int) else (parseDigitsNat digits : Int)
      if int64Min ≤ i ∧ i ≤ int64Max then some i else none
    else none

/-- Go's `unicode.IsSpace` restricted to the Latin-1 range (the only
whitespace runes a counter file could contain as single bytes): space, tab,
newline, vertical tab, form feed, carriage return, NEL, NBSP. -/
def goIsSpace (c : Char) : Bool :=
  c.toNat = 32 || c.toNat = 9 || c.toNat = 10 || c.toNat = 11 ||
    c.toNat = 12 || c.toNat = 13 || c.toNat = 0x85 || c.toNat = 0xA0

/-- Go's `bytes.TrimSpace`: drop whitespace from both ends
(src/main.go line 60). -/
def trimSpace (s : List Char) : List Char :=
  ((s.dropWhile goIsSpace).reverse.dropWhile goIsSpace).reverse

/-- Startup load of the counter file (src/main.go lines 48-65), given the
file's contents (an absent file is created empty by `O_CREATE`, hence `[]`).
`Except.error` models `log.Fatal`: the process aborts.  The counter starts at
`0` and is only assigned when the contents are non-empty. -/
def loadCounter (content : List Char) : Except String Nat :=
  if content = [] then .ok 0
  else
    match parseUint64 (trimSpace content) with
    | some v => .ok v
    | none => .error "Failed to read counter value"

/-- Effect of `saveCounter`'s success path on the file contents
(src/main.go lines 156-159): `Seek(0, 0)` then `fmt.Fprint(counterFile,
counter)` overwrites the first bytes in place; the file is never truncated,
so previous contents beyond the written decimal remain. -/
def saveCounterFile (content : List Char) (counter : Nat) : List Char :=
  decRepr counter ++ content.drop (decRepr counter).length

/-! ### Server state, handlers, flush and shutdown -/

/-- An inbound GET request: the URL path, and the value of the `len` query
parameter as `req.FormValue("len")` returns it (missing parameter = `[]`). -/
structure Request where
  path : List Char
  lenParam : List Char

/-- An HTTP response: status code and body. -/
structure Response where
  status : Nat
  body : List Char

/-- The mutable process state shared by the handlers: the `counter`, whether
`counterFile != nil`, the counter file's contents, and the buffered
`passwords` channel (front of the list = oldest buffered password). -/
structure HttpState where
  counter : Nat
  counterFileOpen : Bool
  fileContent : List Char
  queue : List (List Char)

/-- `getPassword` (src/main.go lines 136-144): under the counter lock,
increment `counter` (uint64 wrap-around), dispatch `go saveCounter()` when a
counter file is open and the incremented counter is divisible by 100, then
receive from the `passwords` channel.  `none` models blocking on an empty
channel; the `Bool` in the result records whether a flush was dispatched
(the dispatch itself does not modify the file in this step). -/
def getPasswordS (st : HttpState) : Option (List Char × Bool × HttpState) :=
  match st.queue with
  | [] => none
  | p :: rest =>
    let c := (st.counter + 1) % uint64Mod
    let flush := st.counterFileOpen && c % 100 == 0
    some (p, flush, { st with counter := c, queue := rest })

/-- `n` sequential (serialized) calls to `getPassword`; a call that would
block leaves the state unchanged. -/
def runCalls (n : Nat) (st : HttpState) : HttpState :=
  match n with
  | 0 => st
  | k + 1 =>
    match getPasswordS st with
    | none => st
    | some (_, _, st') => runCalls k st'

/-- The length computation of `apiHandler` (src/main.go lines 98-106):
parse `len` with `strconv.Atoi`; on error use `minPasswordLength`, otherwise
clamp below to `minPasswordLength` and above to `maxPasswordLength`. -/
def clampLen (lenParam : List Char) : Nat :=
  match goAtoi lenParam with
  | none => minPasswordLength
  | some i =>
    if i < (minPasswordLength : Int) then minPasswordLength
    else if i > (maxPasswordLength : Int) then maxPasswordLength
    else i.toNat

/-- `apiHandler` (src/main.go lines 97-111): responds with
`getPassword()[:n]` as plain text. -/
def apiHandlerS (st : HttpState) (req : Request) : Option (Response × HttpState) :=
  match getPasswordS st with
  | none => none
  | some (p, _, st') => some (⟨200, p.take (clampLen req.lenParam)⟩, st')

/-- `counterHandler` (src/main.go lines 113-119): responds with the decimal
counter value and leaves the state unchanged. -/
def counterHandlerS (st : HttpState) (_req : Request) : Option (Response × HttpState) :=
  some (⟨200, decRepr st.counter⟩, st)

/-- Body written by Go's `http.NotFound`. -/
def notFoundBody : List Char := "404 page not found\n".toList

/-- `indexHandler` (src/main.go lines 82-95): any path other than `/` gets a
404 without touching any state; `/` consumes a password truncated to
`minPasswordLength` and renders the page (markup out of scope, the body is
modelled by its embedded password). -/
def indexHandlerS (st : HttpState) (req : Request) : Option (Response × HttpState) :=
  if req.path ≠ "/".toList then some (⟨404, notFoundBody⟩, st)
  else
    match getPasswordS st with
    | none => none
    | some (p, _, st') => some (⟨200, p.take minPasswordLength⟩, st')

/-- The element processing of Go `path.Clean` on a rooted path: empty and
`.` segments are dropped, `..` pops the previous real segment (or nothing at
the root), and every other segment is kept in order. -/
def cleanSegs (segs : List (List Char)) : List (List Char) :=
  segs.foldl
    (fun stack s =>
      if s = [] ∨ s = ['.'] then stack
      else if s = ['.', '.'] then stack.dropLast
      else stack ++ [s])
    []

/-- Go `path.Clean` restricted to rooted paths (net/http's `cleanPath`
always roots its argument first, so the non-rooted branches of `Clean` are
unreachable here): the cleaned path is `/` followed by the surviving
segments. -/
def pathClean (p : List Char) : List Char :=
  '/' :: List.intercalate ['/'] (cleanSegs (p.splitOn '/'))

/-- net/http's `cleanPath`, applied by `ServeMux` to every request path:
an empty path becomes `/`; a relative path is rooted; the path is cleaned
with `path.Clean`; a trailing slash removed by `Clean` is put back. -/
def cleanPath (p : List Char) : List Char :=
  if p = [] then ['/']
  else
    let pr := if p.head? = some '/' then p else '/' :: p
    let np := pathClean pr
    if pr.getLast? = some '/' ∧ np ≠ ['/'] then np ++ ['/'] else np

/-- The route dispatch of Go's `ServeMux` with the patterns registered in
`main` (src/main.go lines 67-71).  `ServeMux.Handler` first cleans the
request path; a request whose path differs from its cleaned form is answered
with a 301 redirect to the cleaned path (the `Response.body` field stands
for the redirect's `Location` target) without invoking any handler.  A
canonical path is dispatched to the exact-match patterns `/password.txt`
and `/counter`, with the catch-all `/` pattern falling through to
`indexHandler`.  (The path-slash redirect of `ServeMux` never fires here:
the only registered pattern ending in `/` is `/` itself.) -/
def serve (st : HttpState) (req : Request) : Option (Response × HttpState) :=
  if cleanPath req.path = req.path then
    if req.path = "/password.txt".toList then apiHandlerS st req
    else if req.path = "/counter".toList then counterHandlerS st req
    else indexHandlerS st req
  else some (⟨301, cleanPath req.path⟩, st)

/-- Fault oracle for one `saveCounter` run: whether `Seek`, `fmt.Fprint` or
`Sync` fails. -/
structure FlushFaults where
  seekErr : Bool
  writeErr : Bool
  syncErr : Bool

/-- The all-success fault oracle. -/
def noFaults : FlushFaults := ⟨false, false, false⟩

/-- `saveCounter` (src/main.go lines 146-165): a no-op when no counter file
is open; otherwise seek-write-sync under the file lock, with any failure
logged (`log.Print`) and swallowed.  Returns the new file contents and
whether a failure was logged; the Go function has no return value, so no
error propagates to the caller. -/
def saveCounterRun (f : FlushFaults) (fileOpen : Bool) (content : List Char)
    (counter : Nat) : List Char × Bool :=
  if !fileOpen then (content, false)
  else if f.seekErr then (content, true)
  else if f.writeErr then (content, true)
  else (saveCounterFile content counter, f.syncErr)

/-- `handleSignals` (src/main.go lines 167-173) upon receipt of a
termination signal: one call to `saveCounter()` followed by `os.Exit(0)`.
Returns the final process state and the exit code. -/
def handleSignalsOnSignal (f : FlushFaults) (st : HttpState) : HttpState × Nat :=
  ({ st with
      fileContent := (saveCounterRun f st.counterFileOpen st.fileContent st.counter).1 },
    0)

/-! ## Basic lemmas -/

theorem alphabet_length : alphabet.length = 55 := by decide

theorem getD_mem_of_lt (l : List Char) (k : Nat) (d : Char) (h : k < l.length) :
    l.getD k d ∈ l := by
  induction l generalizing k with
  | nil => simp at h
  | cons a t ih =>
    cases k with
    | zero => simp [List.getD]
    | succ k' =>
      have hk : k' < t.length := by simpa using h
      simp only [List.getD_cons_succ]
      exact List.mem_cons_of_mem a (ih k' hk)

theorem generatePassword_mem_alphabet (r : Nat → Nat) (c : Char)
    (hc : c ∈ generatePassword r) : c ∈ alphabet := by
  simp only [generatePassword, List.mem_map, List.mem_range] at hc
  obtain ⟨i, _, rfl⟩ := hc
  apply getD_mem_of_lt
  refine Nat.mod_lt _ ?_
  simp [alphabet_length]

theorem generatePassword_length (r : Nat → Nat) :
    (generatePassword r).length = maxPasswordLength := by
  simp [generatePassword]

/-! ## Decimal formatting and parsing lemmas -/

theorem digitVal_decDigit (d : Nat) (h : d < 10) : digitVal (decDigit d) = d := by
  interval_cases d <;> decide

theorem isDigit_decDigit (d : Nat) (h : d < 10) : (decDigit d).isDigit = true := by
  interval_cases d <;> decide

theorem parseDigitsNat_append (a : List Char) (c : Char) :
    parseDigitsNat (a ++ [c]) = parseDigitsNat a * 10 + digitVal c := by
  simp [parseDigitsNat, List.foldl_append]

theorem parseDigitsNat_decReprAux (fuel : Nat) :
    ∀ n, n ≤ fuel → parseDigitsNat (decReprAux fuel n) = n := by
  induction fuel with
  | zero =>
    intro n hn
    interval_cases n
    decide
  | succ fuel' ih =>
    intro n hn
    by_cases h10 : n < 10
    · simp [decReprAux, h10, parseDigitsNat, digitVal_decDigit n h10]
    · have hdiv : n / 10 ≤ fuel' := by
        have := Nat.div_lt_self (n := n) (by omega) (by omega : 1 < 10)
        omega
      rw [decReprAux]
      simp only [h10, if_false]
      rw [parseDigitsNat_append, ih _ hdiv,
        digitVal_decDigit (n % 10) (Nat.mod_lt _ (by omega))]
      omega

theorem parseDigitsNat_decRepr (n : Nat) : parseDigitsNat (decRepr n) = n :=
  parseDigitsNat_decReprAux (n + 1) n (by omega)

theorem mem_decReprAux_isDigit (fuel : Nat) :
    ∀ n c, c ∈ decReprAux fuel n → c.isDigit = true := by
  induction fuel with
  | zero =>
    intro n c hc
    simp [decReprAux] at hc
  | succ fuel' ih =>
    intro n c hc
    by_cases h10 : n < 10
    · simp [decReprAux, h10] at hc
      subst hc
      exact isDigit_decDigit n h10
    · simp [decReprAux, h10] at hc
      rcases hc with hc | hc
      · exact ih _ c hc
      · subst hc
        exact isDigit_decDigit _ (Nat.mod_lt _ (by omega))

theorem mem_decRepr_isDigit (n : Nat) (c : Char) (hc : c ∈ decRepr n) :
    c.isDigit = true :=
  mem_decReprAux_isDigit (n + 1) n c hc

theorem decRepr_ne_nil (n : Nat) : decRepr n ≠ [] := by
  rw [decRepr, decReprAux]
  by_cases h10 : n < 10 <;> simp [h10]

theorem goIsSpace_eq_false_of_isDigit (c : Char) (h : c.isDigit = true) :
    goIsSpace c = false := by
  simp only [Char.isDigit, Bool.and_eq_true, decide_eq_true_eq] at h
  obtain ⟨h1, h2⟩ := h
  have h1' : 48 ≤ c.val.toNat := by
    simpa [UInt32.le_def, BitVec.le_def] using h1
  have h2' : c.val.toNat ≤ 57 := by
    simpa [UInt32.le_def, BitVec.le_def] using h2
  simp only [goIsSpace, Char.toNat, Bool.or_eq_false_iff, decide_eq_false_iff_not]
  omega

theorem dropWhile_eq_self_of_all_false (p : Char → Bool) (l : List Char)
    (h : ∀ c ∈ l, p c = false) : l.dropWhile p = l := by
  cases l with
  | nil => rfl
  | cons a t => simp [List.dropWhile_cons, h a (List.mem_cons_self a t)]

theorem dropWhile_cons_false (p : Char → Bool) (a : Char) (t : List Char)
    (h : p a = false) : (a :: t).dropWhile p = a :: t := by
  simp [List.dropWhile_cons, h]

theorem dropWhile_append_of_all (p : Char → Bool) (a b : List Char)
    (h : ∀ c ∈ a, p c = true) : (a ++ b).dropWhile p = b.dropWhile p := by
  induction a with
  | nil => rfl
  | cons x xs ih =>
    rw [List.cons_append, List.dropWhile_cons, h x (List.mem_cons_self x xs)]
    exact ih fun c hc => h c (List.mem_cons_of_mem x hc)

theorem trimSpace_of_all_isDigit (l : List Char) (h : ∀ c ∈ l, c.isDigit = true) :
    trimSpace l = l := by
  have h1 : ∀ c ∈ l, goIsSpace c = false := fun c hc =>
    goIsSpace_eq_false_of_isDigit c (h c hc)
  rw [trimSpace, dropWhile_eq_self_of_all_false _ _ h1,
    dropWhile_eq_self_of_all_false _ _ fun c hc => h1 c (List.mem_reverse.mp hc),
    List.reverse_reverse]

theorem trimSpace_wrap (w1 d w2 : List Char) (hd_ne : d ≠ [])
    (hw1 : ∀ c ∈ w1, goIsSpace c = true) (hw2 : ∀ c ∈ w2, goIsSpace c = true)
    (hd : ∀ c ∈ d, c.isDigit = true) :
    trimSpace (w1 ++ d ++ w2) = d := by
  rw [trimSpace, List.append_assoc, dropWhile_append_of_all _ _ _ hw1]
  cases d with
  | nil => exact absurd rfl hd_ne
  | cons c d' =>
    rw [List.cons_append,
      dropWhile_cons_false _ _ _
        (goIsSpace_eq_false_of_isDigit c (hd c (List.mem_cons_self c d')))]
    rw [show (c :: (d' ++ w2)).reverse = w2.reverse ++ (c :: d').reverse by simp]
    rw [dropWhile_append_of_all _ _ _ fun x hx => hw2 x (List.mem_reverse.mp hx)]
    rw [dropWhile_eq_self_of_all_false _ _ fun x hx =>
      goIsSpace_eq_false_of_isDigit x (hd x (List.mem_reverse.mp hx))]
    exact List.reverse_reverse _

theorem parseUint64_decRepr (n : Nat) (h : n < uint64Mod) :
    parseUint64 (decRepr n) = some n := by
  have hne := decRepr_ne_nil n
  have hdig : (decRepr n).all Char.isDigit = true := by
    rw [List.all_eq_true]
    intro c hc
    exact mem_decRepr_isDigit n c hc
  rw [parseUint64]
  simp [hne, hdig, parseDigitsNat_decRepr n, h]

/-! ## Claim C1 -/

/-- C1 counterexample: the claim asserts the alphabet has exactly 56
characters, but the alphabet embedded verbatim from src/main.go line 126 has
55 characters. -/
theorem c1_alphabet_not_56 : ¬ alphabet.length = 56 := by decide

/-- C1 (amended): every password produced by the generator is composed
entirely of characters of the fixed alphabet, and that alphabet is a fixed
ordered sequence of exactly 55 characters. -/
theorem c1_passwords_drawn_from_55_char_alphabet :
    (∀ r : Nat → Nat, ∀ c ∈ generatePassword r, c ∈ alphabet) ∧
      alphabet.length = 55 :=
  ⟨fun r c hc => generatePassword_mem_alphabet r c hc, alphabet_length⟩

/-- C1 witness: the constant-zero random stream produces a password whose
head character is in the alphabet, and the alphabet length evaluates to 55. -/
theorem c1_passwords_drawn_from_55_char_alphabet_witness :
    'a' ∈ alphabet ∧ alphabet.length = 55 :=
  ⟨c1_passwords_drawn_from_55_char_alphabet.1 (fun _ => 0) 'a' (by decide),
    c1_passwords_drawn_from_55_char_alphabet.2⟩

/-! ## Claim C2 -/

theorem take_length_of_le (p : List Char) (n : Nat) (h : n ≤ p.length) :
    (p.take n).length = n := by
  simp [List.length_take, Nat.min_eq_left h]

theorem clampLen_le_max (lp : List Char) : clampLen lp ≤ maxPasswordLength := by
  rw [clampLen]
  cases h : goAtoi lp with
  | none => decide
  | some i =>
    simp only [minPasswordLength, maxPasswordLength]
    by_cases hlo : i < (8 : Int)
    · simp [hlo]
    · by_cases hhi : i > (30 : Int)
      · simp [hlo, hhi]
      · simp [hlo, hhi]
        omega

/-- C2: a `/password.txt` request (with a generator-produced full-length
password buffered at the head of the channel) is answered with a password of
length `clamp(len, 8, 30)`: unparseable or missing `len` gives 8, `len`
below 8 gives 8, `len` above 30 gives 30, and in-range `len` is returned
as-is. -/
theorem c2_api_length_clamped (st : HttpState) (p : List Char)
    (rest : List (List Char)) (lp : List Char)
    (hq : st.queue = p :: rest) (hp : p.length = maxPasswordLength) :
    ∃ st' body, serve st ⟨"/password.txt".toList, lp⟩ = some (⟨200, body⟩, st') ∧
      body.length = clampLen lp ∧
      (goAtoi lp = none → clampLen lp = 8) ∧
      (∀ i, goAtoi lp = some i → i < 8 → clampLen lp = 8) ∧
      (∀ i, goAtoi lp = some i → 8 ≤ i → i ≤ 30 → (clampLen lp : Int) = i) ∧
      (∀ i, goAtoi lp = some i → 30 < i → clampLen lp = 30) := by
  have hclean : cleanPath ("/password.txt".toList) = "/password.txt".toList := by decide
  have hserve : serve st ⟨"/password.txt".toList, lp⟩ =
      some (⟨200, p.take (clampLen lp)⟩,
        { st with counter := (st.counter + 1) % uint64Mod, queue := rest }) := by
    simp only [serve, hclean, apiHandlerS, getPasswordS, hq, if_true]
  refine ⟨_, p.take (clampLen lp), hserve, ?_, ?_, ?_, ?_, ?_⟩
  · exact take_length_of_le p _ (le_trans (clampLen_le_max lp) (le_of_eq hp.symm))
  · intro h
    rw [clampLen, h]
    rfl
  · intro i h hi
    rw [clampLen, h]
    simp only [minPasswordLength, maxPasswordLength]
    simp [show i < (8 : Int) by exact_mod_cast hi]
  · intro i h hlo hhi
    rw [clampLen, h]
    simp only [minPasswordLength, maxPasswordLength]
    rw [if_neg (by omega), if_neg (by omega)]
    omega
  · intro i h hi
    rw [clampLen, h]
    simp only [minPasswordLength, maxPasswordLength]
    rw [if_neg (by omega), if_pos (by omega)]

/-- C2 witness: a concrete state with one full-length buffered password and
`len=1000` is served a 30-character password; the boundary values `0`, `-3`
and a missing `len` give 8. -/
theorem c2_api_length_clamped_witness :
    (∃ st' body,
      serve ⟨0, false, [], [List.replicate 30 'a']⟩ ⟨"/password.txt".toList, "1000".toList⟩ =
          some (⟨200, body⟩, st') ∧
        body.length = clampLen ("1000".toList) ∧
        (goAtoi ("1000".toList) = none → clampLen ("1000".toList) = 8) ∧
        (∀ i, goAtoi ("1000".toList) = some i → i < 8 → clampLen ("1000".toList) = 8) ∧
        (∀ i, goAtoi ("1000".toList) = some i → 8 ≤ i → i ≤ 30 →
          (clampLen ("1000".toList) : Int) = i) ∧
        (∀ i, goAtoi ("1000".toList) = some i → 30 < i → clampLen ("1000".toList) = 30)) ∧
      clampLen ("1000".toList) = 30 ∧ clampLen ("0".toList) = 8 ∧
      clampLen ("-3".toList) = 8 ∧ clampLen [] = 8 :=
  ⟨c2_api_length_clamped _ (List.replicate 30 'a') [] ("1000".toList) rfl (by decide),
    by decide, by decide, by decide, by decide⟩

/-! ## Claim C3 -/

theorem runCalls_counter (n : Nat) : ∀ st : HttpState, st.counter < uint64Mod →
    n ≤ st.queue.length → (runCalls n st).counter = (st.counter + n) % uint64Mod := by
  induction n with
  | zero =>
    intro st hc _
    simpa [runCalls] using (Nat.mod_eq_of_lt hc).symm
  | succ k ih =>
    intro st hc hq
    match hqe : st.queue with
    | [] =>
      rw [hqe] at hq
      simp at hq
    | p :: rest =>
      rw [runCalls, getPasswordS, hqe]
      have hlt : (st.counter + 1) % uint64Mod < uint64Mod :=
        Nat.mod_lt _ (by rw [uint64Mod]; positivity)
      have hlen : k ≤ rest.length := by
        rw [hqe] at hq
        simpa using hq
      rw [ih _ hlt hlen]
      show ((st.counter + 1) % uint64Mod + k) % uint64Mod = _
      rw [Nat.mod_add_mod]
      ring_nf

/-- C3: starting from a counter of 0 with at least `n` buffered passwords
(the generator keeps the channel non-empty), after `n` sequential calls to
`getPassword` the counter equals exactly `n`; moreover after every prefix of
`k ≤ n` calls it equals exactly `k`, so each call adds exactly 1 and the
counter is never decremented or reset.  (`n < 2^64` keeps the uint64 from
wrapping.) -/
theorem c3_counter_after_n_calls (n : Nat) (st : HttpState)
    (h0 : st.counter = 0) (hq : n ≤ st.queue.length) (hn : n < uint64Mod) :
    (runCalls n st).counter = n ∧ ∀ k, k ≤ n → (runCalls k st).counter = k := by
  have key : ∀ k, k ≤ n → (runCalls k st).counter = k := by
    intro k hk
    rw [runCalls_counter k st (by rw [h0]; rw [uint64Mod]; positivity)
      (le_trans hk hq), h0, Nat.zero_add]
    exact Nat.mod_eq_of_lt (lt_of_le_of_lt hk hn)
  exact ⟨key n le_rfl, key⟩

/-- C3 witness: three serialized calls on a state with counter 0 and three
buffered passwords leave the counter at exactly 3, passing through 0, 1, 2. -/
theorem c3_counter_after_n_calls_witness :
    (runCalls 3 ⟨0, false, [], List.replicate 3 (List.replicate 30 'a')⟩).counter = 3 ∧
      ∀ k, k ≤ 3 →
        (runCalls k ⟨0, false, [], List.replicate 3 (List.replicate 30 'a')⟩).counter = k :=
  c3_counter_after_n_calls 3 ⟨0, false, [], List.replicate 3 (List.replicate 30 'a')⟩
    rfl (by decide) (by decide)

/-! ## Claim C4 -/

/-- C4: a call to `getPassword` dispatches an asynchronous flush exactly when
a counter file is open and the incremented counter is divisible by 100; the
dispatch does not itself write the file (the step leaves the file contents
untouched), and the served password and successor state are exactly the
channel head and the incremented state regardless of the dispatch. -/
theorem c4_flush_trigger (st : HttpState) (p : List Char) (fl : Bool)
    (st' : HttpState) (h : getPasswordS st = some (p, fl, st')) :
    (fl = true ↔ st.counterFileOpen = true ∧ st'.counter % 100 = 0) ∧
      st'.fileContent = st.fileContent ∧
      st'.counter = (st.counter + 1) % uint64Mod ∧
      st.queue = p :: st'.queue := by
  match hqe : st.queue with
  | [] =>
    rw [getPasswordS, hqe] at h
    exact absurd h (by simp)
  | q :: rest =>
    rw [getPasswordS, hqe] at h
    simp only [Option.some_inj, Prod.mk.injEq] at h
    obtain ⟨hp, hfl, hst⟩ := h
    subst hp
    subst hst
    refine ⟨?_, rfl, rfl, rfl⟩
    constructor
    · intro hf
      rw [← hfl] at hf
      simp only [Bool.and_eq_true, beq_iff_eq] at hf
      exact ⟨hf.1, hf.2⟩
    · intro ⟨h1, h2⟩
      rw [← hfl, h1]
      simpa using h2

/-- C4 witness: with a counter file open and counter 99, the 100th increment
dispatches a flush; the file contents are untouched in the step and the
buffered password is served. -/
theorem c4_flush_trigger_witness :
    (true = true ↔ true = true ∧ (100 : Nat) % 100 = 0) ∧
      ([] : List Char) = [] ∧
      (100 : Nat) = (99 + 1) % uint64Mod ∧
      [List.replicate 30 'b'] = List.replicate 30 'b' :: [] := by
  have h := c4_flush_trigger ⟨99, true, [], [List.replicate 30 'b']⟩
    (List.replicate 30 'b') true ⟨100, true, [], []⟩ rfl
  exact h

/-! ## Claim C5 -/

/-- C5: startup load of the counter file.  Empty (or absent, hence created
empty) contents start the counter at 0; non-empty contents consisting of an
unsigned decimal with surrounding whitespace load its value; any non-empty
contents whose trimmed form does not parse as a 64-bit unsigned decimal
abort startup with `log.Fatal` instead of defaulting to 0. -/
theorem c5_startup_load :
    loadCounter [] = .ok 0 ∧
    (∀ w1 d w2 : List Char, d ≠ [] → (∀ c ∈ w1, goIsSpace c = true) →
      (∀ c ∈ w2, goIsSpace c = true) → (∀ c ∈ d, c.isDigit = true) →
      parseDigitsNat d < uint64Mod →
      loadCounter (w1 ++ d ++ w2) = .ok (parseDigitsNat d)) ∧
    (∀ content : List Char, content ≠ [] → parseUint64 (trimSpace content) = none →
      loadCounter content = .error "Failed to read counter value") := by
  refine ⟨rfl, ?_, ?_⟩
  · intro w1 d w2 hd_ne hw1 hw2 hd hv
    have hne : w1 ++ d ++ w2 ≠ [] := by
      cases d with
      | nil => exact absurd rfl hd_ne
      | cons c d' => simp
    rw [loadCounter, if_neg hne, trimSpace_wrap w1 d w2 hd_ne hw1 hw2 hd]
    have hdig : d.all Char.isDigit = true := by
      rw [List.all_eq_true]
      exact hd
    rw [parseUint64]
    simp [hd_ne, hdig, hv]
  · intro content hne hparse
    rw [loadCounter, if_neg hne, hparse]

/-- C5 witness: `""` loads 0, `" 123\n"` loads 123, `"counter"` is a fatal
startup error. -/
theorem c5_startup_load_witness :
    loadCounter [] = .ok 0 ∧
    loadCounter (" 123\n".toList) = .ok 123 ∧
    loadCounter ("counter".toList) = .error "Failed to read counter value" := by
  refine ⟨c5_startup_load.1, ?_, ?_⟩
  · have h := c5_startup_load.2.1 (" ".toList) ("123".toList) ("\n".toList)
      (by decide) (by decide) (by decide) (by decide) (by decide)
    have he : " ".toList ++ "123".toList ++ "\n".toList = " 123\n".toList := by decide
    have hv : parseDigitsNat ("123".toList) = 123 := by decide
    rw [he, hv] at h
    exact h
  · exact c5_startup_load.2.2 ("counter".toList) (by decide) (by decide)

/-! ## Claim C6 -/

/-- C6 counterexample: flushing counter value 7 onto a counter file that
previously contained `"12345"` leaves `"72345"` (no truncation), and the
subsequent startup load yields 72345, not 7. -/
theorem c6_roundtrip_counterexample :
    loadCounter (saveCounterFile ("12345".toList) 7) = .ok 72345 ∧
      (Except.ok 72345 : Except String Nat) ≠ .ok 7 := by
  constructor
  · rfl
  · intro h
    simp at h

/-- C6 (amended): for every counter value `V < 2^64`, flushing `V` to the
counter file and then performing a startup load from that file yields exactly
`V`, provided the file's prior contents are no longer than the decimal
representation of `V` (in particular for a fresh or empty file). -/
theorem c6_roundtrip_amended (old : List Char) (v : Nat)
    (hv : v < uint64Mod) (hlen : old.length ≤ (decRepr v).length) :
    loadCounter (saveCounterFile old v) = .ok v := by
  have hdrop : old.drop (decRepr v).length = [] := List.drop_eq_nil_of_le hlen
  rw [saveCounterFile, hdrop, List.append_nil, loadCounter]
  simp only [decRepr_ne_nil v, if_false]
  rw [trimSpace_of_all_isDigit _ fun c hc => mem_decRepr_isDigit v c hc,
    parseUint64_decRepr v hv]

/-- C6 witness: flushing 57 over prior contents `"5"` and reloading yields
exactly 57. -/
theorem c6_roundtrip_amended_witness :
    loadCounter (saveCounterFile ("5".toList) 57) = .ok 57 :=
  c6_roundtrip_amended ("5".toList) 57 (by decide) (by decide)

/-! ## Claim C7 -/

/-- C7 counterexample: a flush of counter value 3 onto a file containing
`"99999"` leaves `"39999"`, not the decimal representation `"3"` alone —
the flush does not overwrite the entire previous contents. -/
theorem c7_overwrite_counterexample :
    saveCounterFile ("99999".toList) 3 = "39999".toList ∧
      "39999".toList ≠ decRepr 3 := by
  constructor
  · rfl
  · decide

/-- C7 (amended): a flush writes the decimal text of the current counter
over the first bytes of the file and leaves any prior bytes beyond that
length in place (`Seek(0,0)` + write without truncation); the file holds
exactly the decimal text when the prior contents were no longer than it, and
flushing twice with the same counter value is idempotent. -/
theorem c7_flush_semantics (content : List Char) (counter : Nat) :
    (saveCounterFile content counter).take (decRepr counter).length = decRepr counter ∧
    (saveCounterFile content counter).drop (decRepr counter).length =
      content.drop (decRepr counter).length ∧
    (content.length ≤ (decRepr counter).length →
      saveCounterFile content counter = decRepr counter) ∧
    saveCounterFile (saveCounterFile content counter) counter =
      saveCounterFile content counter := by
  refine ⟨?_, ?_, ?_, ?_⟩
  · rw [saveCounterFile, List.take_left]
  · rw [saveCounterFile, List.drop_left]
  · intro hlen
    rw [saveCounterFile, List.drop_eq_nil_of_le hlen, List.append_nil]
  · rw [saveCounterFile, saveCounterFile, List.drop_left]

/-- C7 witness: flushing 123 over the shorter prior contents `"99"` leaves
exactly `"123"`, and a second flush of 123 changes nothing. -/
theorem c7_flush_semantics_witness :
    saveCounterFile ("99".toList) 123 = decRepr 123 ∧
      saveCounterFile (saveCounterFile ("99".toList) 123) 123 =
        saveCounterFile ("99".toList) 123 :=
  ⟨(c7_flush_semantics ("99".toList) 123).2.2.1 (by decide),
    (c7_flush_semantics ("99".toList) 123).2.2.2⟩

/-! ## Claim C8 -/

/-- C8: a `saveCounter` failure is logged and swallowed.  The run always
returns normally (its result type carries no error), the logged flag is set
exactly when the file is open and a seek, write or sync fault occurred, a
flush that fails before writing leaves the file contents untouched, and a
later flush attempt from the resulting state behaves exactly as it would
have with no prior failed attempt. -/
theorem c8_flush_failure_swallowed (f f2 : FlushFaults) (fileOpen : Bool)
    (content : List Char) (c c2 : Nat) :
    ((saveCounterRun f fileOpen content c).2 = true ↔
      fileOpen = true ∧
        (f.seekErr = true ∨ f.writeErr = true ∨ f.syncErr = true)) ∧
    (f.seekErr = true ∨ f.writeErr = true →
      (saveCounterRun f fileOpen content c).1 = content) ∧
    (f.seekErr = true ∨ f.writeErr = true →
      saveCounterRun f2 fileOpen (saveCounterRun f fileOpen content c).1 c2 =
        saveCounterRun f2 fileOpen content c2) := by
  obtain ⟨se, we, sy⟩ := f
  refine ⟨?_, ?_, ?_⟩
  · cases fileOpen <;> cases se <;> cases we <;> cases sy <;>
      simp [saveCounterRun]
  · intro h
    cases fileOpen <;> cases se <;> cases we <;>
      first
        | rfl
        | simp at h
  · intro h
    have hcontent : (saveCounterRun ⟨se, we, sy⟩ fileOpen content c).1 = content := by
      cases fileOpen <;> cases se <;> cases we <;>
        first
          | rfl
          | simp at h
    rw [hcontent]

/-- C8 witness: with the file open and a seek fault, the flush of counter 60
logs, leaves the contents `"57"` untouched, and the next fault-free flush
from the resulting state equals a fault-free flush from the original state. -/
theorem c8_flush_failure_swallowed_witness :
    ((saveCounterRun ⟨true, false, false⟩ true ("57".toList) 60).2 = true ↔
      true = true ∧
        ((true : Bool) = true ∨ (false : Bool) = true ∨ (false : Bool) = true)) ∧
    ((true : Bool) = true ∨ (false : Bool) = true →
      (saveCounterRun ⟨true, false, false⟩ true ("57".toList) 60).1 = "57".toList) ∧
    ((true : Bool) = true ∨ (false : Bool) = true →
      saveCounterRun noFaults true
          (saveCounterRun ⟨true, false, false⟩ true ("57".toList) 60).1 100 =
        saveCounterRun noFaults true ("57".toList) 100) :=
  c8_flush_failure_swallowed ⟨true, false, false⟩ noFaults true ("57".toList) 60 100

/-! ## Claim C9 -/

/-- C9: on receiving a termination signal the process performs one final
fault-free flush and exits with status 0.  The flush is unconditional in the
counter value — the conclusion holds for every counter, with no divisibility
hypothesis, so the periodic mod-100 gating is bypassed — and when no counter
file is open the flush is a no-op and the process still exits with status 0. -/
theorem c9_shutdown_final_flush (st : HttpState) :
    (st.counterFileOpen = true →
      handleSignalsOnSignal noFaults st =
        ({ st with fileContent := saveCounterFile st.fileContent st.counter }, 0)) ∧
    (st.counterFileOpen = false →
      handleSignalsOnSignal noFaults st = (st, 0)) := by
  constructor
  · intro h
    rw [handleSignalsOnSignal, h]
    rfl
  · intro h
    rw [handleSignalsOnSignal]
    have hfc : (saveCounterRun noFaults st.counterFileOpen st.fileContent st.counter).1 =
        st.fileContent := by
      rw [saveCounterRun, h]
      rfl
    rw [hfc]

/-- C9 witness: persistence configured, counter 57 (not a multiple of 100,
so no periodic flush ever ran), prior file contents `"50"`: the signal
handler flushes `"57"` and exits with status 0. -/
theorem c9_shutdown_final_flush_witness :
    handleSignalsOnSignal noFaults ⟨57, true, "50".toList, []⟩ =
      (⟨57, true, "57".toList, []⟩, 0) := by
  have h := (c9_shutdown_final_flush ⟨57, true, "50".toList, []⟩).1 rfl
  rw [h]
  rfl

/-! ## Claim C10 -/

/-- C10 counterexample: `GET //counter` — a path that is not exactly one of
the three routes — is answered by the real mux with a 301 redirect to the
cleaned path `/counter`, not with 404, refuting the universally quantified
404 claim (the state is still unchanged). -/
theorem c10_redirect_counterexample :
    serve ⟨5, true, "5".toList, []⟩ ⟨"//counter".toList, []⟩ =
      some (⟨301, "/counter".toList⟩, ⟨5, true, "5".toList, []⟩) ∧
      (301 : Nat) ≠ 404 := by
  constructor
  · rfl
  · decide

/-- C10 (amended): a GET request whose path is not exactly `/`,
`/password.txt` or `/counter` leaves all state unchanged — the counter is
not incremented and no password is consumed from the channel — and is
answered with 404 Not Found when the path is already in canonical (cleaned)
form; a path that differs from its cleaned form is instead answered with a
301 redirect to the cleaned path. -/
theorem c10_canonical_404_else_redirect (st : HttpState) (req : Request) :
    (cleanPath req.path = req.path → req.path ≠ "/".toList →
      req.path ≠ "/password.txt".toList → req.path ≠ "/counter".toList →
      serve st req = some (⟨404, notFoundBody⟩, st)) ∧
    (cleanPath req.path ≠ req.path →
      serve st req = some (⟨301, cleanPath req.path⟩, st)) := by
  constructor
  · intro hc h1 h2 h3
    rw [serve, if_pos hc, if_neg h2, if_neg h3, indexHandlerS, if_pos h1]
  · intro hc
    rw [serve, if_neg hc]

/-- C10 witness: against a concrete state, the canonical path
`/favicon.ico` gets a 404 with the identical state back, and the
non-canonical path `/a/../counter` gets a 301 redirect, also with the
identical state back. -/
theorem c10_canonical_404_else_redirect_witness :
    serve ⟨5, true, "5".toList, [List.replicate 30 'c']⟩ ⟨"/favicon.ico".toList, []⟩ =
      some (⟨404, notFoundBody⟩, ⟨5, true, "5".toList, [List.replicate 30 'c']⟩) ∧
    serve ⟨5, true, "5".toList, [List.replicate 30 'c']⟩ ⟨"/a/../counter".toList, []⟩ =
      some (⟨301, cleanPath ("/a/../counter".toList)⟩,
        ⟨5, true, "5".toList, [List.replicate 30 'c']⟩) :=
  ⟨(c10_canonical_404_else_redirect ⟨5, true, "5".toList, [List.replicate 30 'c']⟩
      ⟨"/favicon.ico".toList, []⟩).1 (by decide) (by decide) (by decide) (by decide),
    (c10_canonical_404_else_redirect ⟨5, true, "5".toList, [List.replicate 30 'c']⟩
      ⟨"/a/../counter".toList, []⟩).2 (by decide)⟩
